import Mathlib

/-!
Verification of the core logic of `src/headset_control.c` from the
`mtb-example-btsdk-audio-headset-standalone` firmware.

The C source is embedded shallowly:
* the microphone-data circular buffer (`headset_control_mic_data`,
  `headset_control_mic_data_add`, `headset_control_mic_data_add_callback`,
  `headset_control_mic_data_reset`) as a state record over `Nat`-indexed
  byte storage, with `memcpy`/`memset` modelled by `writeBytes`;
* the local-IRK store (`headset_control_local_irk_update`,
  `headset_control_local_irk_restore` and the identity-key-request case of
  `btheadset_control_management_callback`) with the external NVRAM
  collaborator passed in as an oracle function;
* the pairing decision cases of `btheadset_control_management_callback`
  (IO-capability requests, security request, SCO events) as pure functions
  of the event data and the external flags they read.
-/

namespace HeadsetControl

/-- `HEADSET_CONTROL_MIC_DATA_BUFFER_LEN` from headset_control.c (bytes). -/
def HEADSET_CONTROL_MIC_DATA_BUFFER_LEN : Nat := 1024

/-- `memcpy(&buf[off], data, data.length)`: write the bytes of `data`
consecutively starting at index `off` of `buf`. -/
def writeBytes (buf : Nat → Nat) (off : Nat) : List Nat → (Nat → Nat)
  | [] => buf
  | b :: rest => writeBytes (fun j => if j = off then b else buf j) (off + 1) rest

/-- `memcpy(dst, &buf[off], n)`: the `n` consecutive bytes of `buf`
starting at index `off`. -/
def readBytes (buf : Nat → Nat) (off n : Nat) : List Nat :=
  (List.range n).map fun k => buf (off + k)

/-- `struct headset_control_mic_data_info_t` (mutex omitted: operations are
modelled as atomic state transformers, which is what the mutex enforces). -/
structure MicDataState where
  buffer : Nat → Nat
  data_len : Nat
  index_start : Nat
  index_end : Nat

/-- `headset_control_mic_data = { 0 }`: the zero-initialised global. -/
def micDataInit : MicDataState :=
  { buffer := fun _ => 0, data_len := 0, index_start := 0, index_end := 0 }

/-- `headset_control_mic_data_reset`: `memset(buffer, 0, N)` and clear
`data_len`, `index_start`, `index_end`. -/
def headset_control_mic_data_reset (s : MicDataState) : MicDataState :=
  { buffer := writeBytes s.buffer 0 (List.replicate HEADSET_CONTROL_MIC_DATA_BUFFER_LEN 0),
    data_len := 0, index_start := 0, index_end := 0 }

/-- `headset_control_mic_data_add(p_data, len)`: the producer side.  The C
parameter pair `(p_data, len)` is modelled as the list `p_data` of the `len`
input bytes. -/
def headset_control_mic_data_add (s : MicDataState) (p_data : List Nat) : MicDataState :=
  if s.data_len = HEADSET_CONTROL_MIC_DATA_BUFFER_LEN then s
  else
    let len := p_data.length
    let data_to_be_fill :=
      if len ≤ HEADSET_CONTROL_MIC_DATA_BUFFER_LEN - s.data_len then len
      else HEADSET_CONTROL_MIC_DATA_BUFFER_LEN - s.data_len
    let buffer' :=
      if HEADSET_CONTROL_MIC_DATA_BUFFER_LEN - s.index_end ≥ data_to_be_fill then
        writeBytes s.buffer s.index_end (p_data.take data_to_be_fill)
      else
        writeBytes
          (writeBytes s.buffer s.index_end
            (p_data.take (HEADSET_CONTROL_MIC_DATA_BUFFER_LEN - s.index_end)))
          0
          ((p_data.drop (HEADSET_CONTROL_MIC_DATA_BUFFER_LEN - s.index_end)).take
            (data_to_be_fill - (HEADSET_CONTROL_MIC_DATA_BUFFER_LEN - s.index_end)))
    let index_end' :=
      if s.index_end + data_to_be_fill ≥ HEADSET_CONTROL_MIC_DATA_BUFFER_LEN then
        s.index_end + data_to_be_fill - HEADSET_CONTROL_MIC_DATA_BUFFER_LEN
      else s.index_end + data_to_be_fill
    { buffer := buffer',
      data_len := s.data_len + data_to_be_fill,
      index_start := s.index_start,
      index_end := index_end' }

/-- `headset_control_mic_data_add_callback(p_data, len)`: the consumer side.
`p_data` is the caller's output buffer of `len` bytes (its prior contents);
the result is `(new state, contents of the output buffer on return,
returned wiced_bool_t)`. -/
def headset_control_mic_data_add_callback (s : MicDataState) (p_data : List Nat) :
    MicDataState × List Nat × Bool :=
  if s.data_len = 0 then (s, p_data, false)
  else
    let len := p_data.length
    let data_to_be_fill := if s.data_len ≥ len then len else s.data_len
    let real_bytes :=
      if HEADSET_CONTROL_MIC_DATA_BUFFER_LEN - s.index_start ≥ data_to_be_fill then
        readBytes s.buffer s.index_start data_to_be_fill
      else
        readBytes s.buffer s.index_start
            (HEADSET_CONTROL_MIC_DATA_BUFFER_LEN - s.index_start) ++
          readBytes s.buffer 0
            (data_to_be_fill - (HEADSET_CONTROL_MIC_DATA_BUFFER_LEN - s.index_start))
    let out :=
      if data_to_be_fill < len then
        real_bytes ++ List.replicate (len - data_to_be_fill) 0
      else real_bytes
    let index_start' :=
      if s.index_start + data_to_be_fill ≥ HEADSET_CONTROL_MIC_DATA_BUFFER_LEN then
        s.index_start + data_to_be_fill - HEADSET_CONTROL_MIC_DATA_BUFFER_LEN
      else s.index_start + data_to_be_fill
    ({ s with data_len := s.data_len - data_to_be_fill, index_start := index_start' },
     out, true)

/-- The ring-buffer representation invariant: the stored length never
exceeds the capacity, the read cursor is in range, and the write cursor
sits `data_len` bytes (mod N) after the read cursor. -/
def MicDataInv (s : MicDataState) : Prop :=
  s.data_len ≤ HEADSET_CONTROL_MIC_DATA_BUFFER_LEN ∧
  s.index_start < HEADSET_CONTROL_MIC_DATA_BUFFER_LEN ∧
  s.index_end = (s.index_start + s.data_len) % HEADSET_CONTROL_MIC_DATA_BUFFER_LEN

instance (s : MicDataState) : Decidable (MicDataInv s) := by
  unfold MicDataInv; infer_instance

/-- The FIFO content of the ring: the `data_len` valid bytes starting at
`index_start`, wrapping at the capacity. -/
def ringContent (s : MicDataState) : List Nat :=
  (List.range s.data_len).map fun k =>
    s.buffer ((s.index_start + k) % HEADSET_CONTROL_MIC_DATA_BUFFER_LEN)

/-- One operation on the microphone-data buffer: a `MIC_DATA` command
(`headset_control_mic_data_add` with the given input bytes) or an audio
pull (`headset_control_mic_data_add_callback` with the given caller output
buffer, whose length is the requested length). -/
inductive MicOp where
  | append (data : List Nat)
  | consume (out_buf : List Nat)
deriving DecidableEq

/-- Effect of one operation on the buffer state. -/
def micStep (s : MicDataState) : MicOp → MicDataState
  | .append d => headset_control_mic_data_add s d
  | .consume p => (headset_control_mic_data_add_callback s p).1

/-- The input bytes an `append` actually accepts into the ring
(`data_to_be_fill` leading bytes; everything for a `consume`-op is `[]`). -/
def opAccepted (s : MicDataState) : MicOp → List Nat
  | .append d => d.take (min d.length (HEADSET_CONTROL_MIC_DATA_BUFFER_LEN - s.data_len))
  | .consume _ => []

/-- The real (non-zero-padding) bytes a `consume` delivers: the first
`data_to_be_fill` bytes of the output buffer when `has_data` is `WICED_TRUE`,
nothing otherwise. -/
def opDelivered (s : MicDataState) : MicOp → List Nat
  | .append _ => []
  | .consume p =>
      let r := headset_control_mic_data_add_callback s p
      if r.2.2 then r.2.1.take (min s.data_len p.length) else []

/-- Run a sequence of operations. -/
def micRun : MicDataState → List MicOp → MicDataState
  | s, [] => s
  | s, op :: ops => micRun (micStep s op) ops

/-- Concatenation of all bytes accepted by the `append`s of a run. -/
def micAccepted : MicDataState → List MicOp → List Nat
  | _, [] => []
  | s, op :: ops => opAccepted s op ++ micAccepted (micStep s op) ops

/-- Concatenation of all real bytes delivered by the `consume`s of a run. -/
def micDelivered : MicDataState → List MicOp → List Nat
  | _, [] => []
  | s, op :: ops => opDelivered s op ++ micDelivered (micStep s op) ops

/-- Result codes of the wiced stack that this file distinguishes. -/
inductive wiced_result_t where
  | WICED_BT_SUCCESS
  | WICED_BT_ERROR
  | WICED_BT_NO_RESOURCES
  | WICED_BT_USE_DEFAULT_SECURITY
  | WICED_BT_OTHER (code : Nat)
deriving DecidableEq

/-- `BTM_SECURITY_LOCAL_KEY_DATA_LEN`: the local identity key blob is 16
bytes. -/
def BTM_SECURITY_LOCAL_KEY_DATA_LEN : Nat := 16

/-- `headset_control_local_irk_info_t`: cached IRK blob plus the cached
result of the last recorded restore/update. -/
structure headset_control_local_irk_info_t where
  local_irk : List Nat
  result : wiced_result_t
deriving DecidableEq

/-- `headset_control_local_irk_restore`: `wiced_hal_read_nvram` fills the
cached blob and the cached result; the external NVRAM read is the oracle
`nvram_read`, returning (bytes read, blob written to the cache, status). -/
def headset_control_local_irk_restore
    (nvram_read : Nat × List Nat × wiced_result_t) : headset_control_local_irk_info_t :=
  { local_irk := nvram_read.2.1, result := nvram_read.2.2 }

/-- `headset_control_local_irk_update(p_key)`: `nvram_write` is the external
`wiced_hal_write_nvram` collaborator, returning (bytes written, status) for
the key it is given.  The second component of the result counts the
persistence writes the call issued (0 or 1). -/
def headset_control_local_irk_update (info : headset_control_local_irk_info_t)
    (p_key : List Nat) (nvram_write : List Nat → Nat × wiced_result_t) :
    headset_control_local_irk_info_t × Nat :=
  if p_key = info.local_irk then (info, 0)
  else
    let w := nvram_write p_key
    if w.1 = BTM_SECURITY_LOCAL_KEY_DATA_LEN ∧ w.2 = wiced_result_t.WICED_BT_SUCCESS then
      ({ local_irk := p_key, result := w.2 }, 1)
    else (info, 1)

/-- `BTM_LOCAL_IDENTITY_KEYS_REQUEST_EVT` case of
`btheadset_control_management_callback`: `prev_out` is the stack's output
field before the event; the result is (returned status, output field on
return). -/
def btheadset_handle_identity_keys_request (info : headset_control_local_irk_info_t)
    (prev_out : List Nat) : wiced_result_t × List Nat :=
  if info.result = wiced_result_t.WICED_BT_SUCCESS then
    (wiced_result_t.WICED_BT_SUCCESS, info.local_irk)
  else
    (wiced_result_t.WICED_BT_NO_RESOURCES, prev_out)

/-- `BTM_LOCAL_IDENTITY_KEYS_UPDATE_EVT` case: delegates verbatim to
`headset_control_local_irk_update`. -/
def btheadset_handle_identity_keys_update (info : headset_control_local_irk_info_t)
    (p_key : List Nat) (nvram_write : List Nat → Nat × wiced_result_t) :
    headset_control_local_irk_info_t × Nat :=
  headset_control_local_irk_update info p_key nvram_write

/-- IO-capability values of the wiced stack (`wiced_bt_dev.h`); the
theorems depend only on the names, not the numeric encodings. -/
def BTM_IO_CAPABILITIES_DISPLAY_ONLY : Nat := 0

def BTM_IO_CAPABILITIES_DISPLAY_AND_YES_NO_INPUT : Nat := 1

def BTM_IO_CAPABILITIES_KEYBOARD_ONLY : Nat := 2

def BTM_IO_CAPABILITIES_NONE : Nat := 3

def BTM_OOB_NONE : Nat := 0

def BTM_AUTH_SINGLE_PROFILE_GENERAL_BONDING_NO : Nat := 4

def BTM_LE_AUTH_REQ_BOND : Nat := 1

def BTM_LE_AUTH_REQ_MITM : Nat := 4

def BTM_LE_AUTH_REQ_SC : Nat := 8

def BTM_LE_AUTH_REQ_SC_MITM_BOND : Nat :=
  BTM_LE_AUTH_REQ_SC ||| BTM_LE_AUTH_REQ_MITM ||| BTM_LE_AUTH_REQ_BOND

def BTM_LE_KEY_PENC : Nat := 1

def BTM_LE_KEY_PID : Nat := 2

def BTM_LE_KEY_PCSRK : Nat := 4

def BTM_LE_KEY_LENC : Nat := 8

/-- Reply fields filled by the `BTM_PAIRING_IO_CAPABILITIES_BR_EDR_REQUEST_EVT`
case. -/
structure BrEdrIoCapsReply where
  local_io_cap : Nat
  auth_req : Nat
  oob_data : Bool
deriving DecidableEq

/-- `BTM_PAIRING_IO_CAPABILITIES_BR_EDR_REQUEST_EVT` case of
`btheadset_control_management_callback`; `seeker_mode` is the external
`wiced_bt_gfps_provider_pairing_state_get()` flag (false when fast pair is
not compiled in). -/
def btheadset_handle_io_caps_br_edr_request (seeker_mode : Bool) : BrEdrIoCapsReply :=
  { local_io_cap :=
      if seeker_mode then BTM_IO_CAPABILITIES_DISPLAY_AND_YES_NO_INPUT
      else BTM_IO_CAPABILITIES_NONE,
    auth_req := BTM_AUTH_SINGLE_PROFILE_GENERAL_BONDING_NO,
    oob_data := false }

/-- Reply fields filled by the `BTM_PAIRING_IO_CAPABILITIES_BLE_REQUEST_EVT`
case. -/
structure BleIoCapsReply where
  local_io_cap : Nat
  oob_data : Nat
  auth_req : Nat
  max_key_size : Nat
  init_keys : Nat
  resp_keys : Nat
deriving DecidableEq

/-- `BTM_PAIRING_IO_CAPABILITIES_BLE_REQUEST_EVT` case of
`btheadset_control_management_callback`. -/
def btheadset_handle_io_caps_ble_request : BleIoCapsReply :=
  { local_io_cap := BTM_IO_CAPABILITIES_NONE,
    oob_data := BTM_OOB_NONE,
    auth_req := BTM_LE_AUTH_REQ_SC_MITM_BOND,
    max_key_size := 16,
    init_keys := BTM_LE_KEY_PENC ||| BTM_LE_KEY_PID ||| BTM_LE_KEY_PCSRK ||| BTM_LE_KEY_LENC,
    resp_keys := BTM_LE_KEY_PENC ||| BTM_LE_KEY_PID ||| BTM_LE_KEY_PCSRK ||| BTM_LE_KEY_LENC }

/-- `BTM_SECURITY_REQUEST_EVT` case of `btheadset_control_management_callback`:
`pairing_allowed` is the external `hci_control_cb.pairing_allowed` flag; the
result is (status passed to `wiced_bt_ble_security_grant` if it is called,
status returned to the stack). -/
def btheadset_handle_security_request (pairing_allowed : Bool) :
    Option wiced_result_t × wiced_result_t :=
  if pairing_allowed then
    (some wiced_result_t.WICED_BT_SUCCESS, wiced_result_t.WICED_BT_SUCCESS)
  else
    (none, wiced_result_t.WICED_BT_ERROR)

/-- The four SCO management events routed to `hf_sco_management_callback`. -/
inductive ScoEvent where
  | sco_connected
  | sco_disconnected
  | sco_connection_request
  | sco_connection_change
deriving DecidableEq

/-- The SCO cases of `btheadset_control_management_callback`: every event is
forwarded unchanged to `hf_sco_management_callback` (first component), and
after a `BTM_SCO_DISCONNECTED_EVT` the microphone buffer is reset. -/
def btheadset_handle_sco_event (ev : ScoEvent) (s : MicDataState) :
    ScoEvent × MicDataState :=
  (ev, if ev = ScoEvent.sco_disconnected then headset_control_mic_data_reset s else s)

/-! ### Helper lemmas about the byte-copy primitives -/

theorem writeBytes_apply (data : List Nat) : ∀ (buf : Nat → Nat) (off i : Nat),
    writeBytes buf off data i =
      if off ≤ i ∧ i < off + data.length then data.getD (i - off) 0 else buf i := by
  induction data with
  | nil =>
    intro buf off i
    simp only [writeBytes, List.length_nil, Nat.add_zero]
    rw [if_neg (by omega)]
  | cons b rest ih =>
    intro buf off i
    rw [writeBytes, ih]
    by_cases h1 : off + 1 ≤ i ∧ i < off + 1 + rest.length
    · rw [if_pos h1, if_pos (by simp only [List.length_cons]; omega)]
      have hio : i - off = (i - (off + 1)) + 1 := by omega
      rw [hio, List.getD_cons_succ]
    · rw [if_neg h1]
      by_cases h2 : i = off
      · subst h2
        rw [if_pos rfl, if_pos (by simp only [List.length_cons]; omega)]
        simp only [Nat.sub_self, List.getD_cons_zero]
      · rw [if_neg h2, if_neg (by simp only [List.length_cons]; omega)]

theorem getD_take (l : List Nat) : ∀ (n j : Nat), j < n →
    (l.take n).getD j 0 = l.getD j 0 := by
  induction l with
  | nil => intro n j _; simp
  | cons a t ih =>
    intro n j hj
    cases n with
    | zero => omega
    | succ m =>
      cases j with
      | zero => simp
      | succ k =>
        simp only [List.take_succ_cons, List.getD_cons_succ]
        exact ih m k (by omega)

theorem getD_drop (l : List Nat) : ∀ (m j : Nat),
    (l.drop m).getD j 0 = l.getD (m + j) 0 := by
  induction l with
  | nil => intro m j; simp
  | cons a t ih =>
    intro m j
    cases m with
    | zero => simp
    | succ k =>
      simp only [List.drop_succ_cons, Nat.succ_add, List.getD_cons_succ]
      exact ih k j

theorem getD_replicate_zero (n j : Nat) : (List.replicate n 0).getD j 0 = 0 := by
  induction n generalizing j with
  | zero => simp
  | succ m ih =>
    cases j with
    | zero => simp
    | succ k => simp only [List.replicate_succ, List.getD_cons_succ]; exact ih k

theorem readBytes_length (buf : Nat → Nat) (off n : Nat) :
    (readBytes buf off n).length = n := by
  simp [readBytes]

theorem mod_add_inj {s a b : Nat}
    (ha : a < HEADSET_CONTROL_MIC_DATA_BUFFER_LEN)
    (hb : b < HEADSET_CONTROL_MIC_DATA_BUFFER_LEN)
    (h : (s + a) % HEADSET_CONTROL_MIC_DATA_BUFFER_LEN
       = (s + b) % HEADSET_CONTROL_MIC_DATA_BUFFER_LEN) : a = b := by
  have h' : a % HEADSET_CONTROL_MIC_DATA_BUFFER_LEN
          = b % HEADSET_CONTROL_MIC_DATA_BUFFER_LEN :=
    Nat.ModEq.add_left_cancel' s h
  rwa [Nat.mod_eq_of_lt ha, Nat.mod_eq_of_lt hb] at h'

theorem ringContent_length (s : MicDataState) : (ringContent s).length = s.data_len := by
  simp [ringContent]

/-! ### Per-call specification of `headset_control_mic_data_add` -/

theorem add_spec (s : MicDataState) (d : List Nat) (fill : Nat)
    (hend : s.index_end < HEADSET_CONTROL_MIC_DATA_BUFFER_LEN)
    (hlen : s.data_len < HEADSET_CONTROL_MIC_DATA_BUFFER_LEN)
    (hfill : fill = min d.length (HEADSET_CONTROL_MIC_DATA_BUFFER_LEN - s.data_len)) :
    (headset_control_mic_data_add s d).data_len = s.data_len + fill ∧
    (headset_control_mic_data_add s d).index_start = s.index_start ∧
    (headset_control_mic_data_add s d).index_end
      = (s.index_end + fill) % HEADSET_CONTROL_MIC_DATA_BUFFER_LEN ∧
    (∀ j, j < fill →
      (headset_control_mic_data_add s d).buffer
          ((s.index_end + j) % HEADSET_CONTROL_MIC_DATA_BUFFER_LEN) = d.getD j 0) ∧
    (∀ i, i < HEADSET_CONTROL_MIC_DATA_BUFFER_LEN →
      (∀ j, j < fill → i ≠ (s.index_end + j) % HEADSET_CONTROL_MIC_DATA_BUFFER_LEN) →
      (headset_control_mic_data_add s d).buffer i = s.buffer i) := by
  simp only [HEADSET_CONTROL_MIC_DATA_BUFFER_LEN] at hend hlen hfill ⊢
  simp only [headset_control_mic_data_add, HEADSET_CONTROL_MIC_DATA_BUFFER_LEN]
  rw [if_neg (by omega : ¬ s.data_len = 1024)]
  have hdf : (if d.length ≤ 1024 - s.data_len then d.length else 1024 - s.data_len) = fill := by
    rcases le_or_lt d.length (1024 - s.data_len) with h | h
    · rw [if_pos h]; omega
    · rw [if_neg (by omega)]; omega
  simp only [hdf]
  have hfd : fill ≤ d.length := by omega
  have hf1024 : fill ≤ 1024 - s.data_len := by omega
  refine ⟨trivial, trivial, ?_, ?_, ?_⟩
  · rcases le_or_lt 1024 (s.index_end + fill) with h | h
    · rw [if_pos h]; omega
    · rw [if_neg (by omega)]; omega
  · intro j hj
    by_cases hA : 1024 - s.index_end ≥ fill
    · rw [if_pos hA]
      have hp : (s.index_end + j) % 1024 = s.index_end + j := Nat.mod_eq_of_lt (by omega)
      rw [hp, writeBytes_apply,
        if_pos ⟨by omega, by rw [List.length_take]; omega⟩]
      have hj' : s.index_end + j - s.index_end = j := by omega
      rw [hj', getD_take d fill j hj]
    · rw [if_neg hA]
      rcases Nat.lt_or_ge j (1024 - s.index_end) with hjf | hjf
      · have hp : (s.index_end + j) % 1024 = s.index_end + j := Nat.mod_eq_of_lt (by omega)
        rw [hp, writeBytes_apply, if_neg (by rw [List.length_take]; omega),
          writeBytes_apply, if_pos ⟨by omega, by rw [List.length_take]; omega⟩]
        have hj' : s.index_end + j - s.index_end = j := by omega
        rw [hj', getD_take d (1024 - s.index_end) j hjf]
      · have hp : (s.index_end + j) % 1024 = j - (1024 - s.index_end) := by omega
        rw [hp, writeBytes_apply,
          if_pos ⟨by omega, by rw [List.length_take, List.length_drop]; omega⟩]
        rw [Nat.sub_zero, getD_take _ (fill - (1024 - s.index_end)) _ (by omega),
          getD_drop]
        have hj' : 1024 - s.index_end + (j - (1024 - s.index_end)) = j := by omega
        rw [hj']
  · intro i hi hnot
    by_cases hA : 1024 - s.index_end ≥ fill
    · rw [if_pos hA, writeBytes_apply, if_neg ?side]
      case side =>
        rintro ⟨h1, h2⟩
        rw [List.length_take] at h2
        exact hnot (i - s.index_end) (by omega) (by omega)
    · rw [if_neg hA, writeBytes_apply, if_neg ?s1, writeBytes_apply, if_neg ?s2]
      case s1 =>
        rintro ⟨_, h2⟩
        rw [List.length_take, List.length_drop] at h2
        exact hnot (1024 - s.index_end + i) (by omega) (by omega)
      case s2 =>
        rintro ⟨h1, h2⟩
        rw [List.length_take] at h2
        exact hnot (i - s.index_end) (by omega) (by omega)

/-! ### Per-call specification of `headset_control_mic_data_add_callback` -/

theorem callback_spec (s : MicDataState) (p : List Nat) (fill : Nat)
    (h0 : ¬ s.data_len = 0)
    (hstart : s.index_start < HEADSET_CONTROL_MIC_DATA_BUFFER_LEN)
    (hlen : s.data_len ≤ HEADSET_CONTROL_MIC_DATA_BUFFER_LEN)
    (hfill : fill = min s.data_len p.length) :
    headset_control_mic_data_add_callback s p =
      ({ buffer := s.buffer, data_len := s.data_len - fill,
         index_start := (s.index_start + fill) % HEADSET_CONTROL_MIC_DATA_BUFFER_LEN,
         index_end := s.index_end },
       ((List.range fill).map fun k =>
          s.buffer ((s.index_start + k) % HEADSET_CONTROL_MIC_DATA_BUFFER_LEN)) ++
         List.replicate (p.length - fill) 0,
       true) := by
  simp only [HEADSET_CONTROL_MIC_DATA_BUFFER_LEN] at hstart hlen hfill ⊢
  simp only [headset_control_mic_data_add_callback, HEADSET_CONTROL_MIC_DATA_BUFFER_LEN]
  rw [if_neg h0]
  have hdf : (if s.data_len ≥ p.length then p.length else s.data_len) = fill := by
    rcases le_or_lt p.length s.data_len with h | h
    · rw [if_pos h]; omega
    · rw [if_neg (by omega)]; omega
  simp only [hdf]
  have hfp : fill ≤ p.length := by omega
  have hfl : fill ≤ s.data_len := by omega
  have hreal : (if 1024 - s.index_start ≥ fill then
        readBytes s.buffer s.index_start fill
      else
        readBytes s.buffer s.index_start (1024 - s.index_start) ++
          readBytes s.buffer 0 (fill - (1024 - s.index_start)))
      = (List.range fill).map fun k => s.buffer ((s.index_start + k) % 1024) := by
    by_cases hA : 1024 - s.index_start ≥ fill
    · rw [if_pos hA]
      apply List.ext_getElem
      · simp [readBytes]
      · intro k h1 h2
        simp only [readBytes, List.getElem_map, List.getElem_range]
        congr 1
        simp only [readBytes, List.length_map, List.length_range] at h1
        omega
    · rw [if_neg hA]
      apply List.ext_getElem
      · simp [readBytes]; omega
      · intro k h1 h2
        simp only [List.length_map, List.length_range] at h2
        rcases Nat.lt_or_ge k (1024 - s.index_start) with hk | hk
        · rw [List.getElem_append_left (by simp [readBytes]; omega)]
          simp only [readBytes, List.getElem_map, List.getElem_range]
          congr 1
          omega
        · rw [List.getElem_append_right (by simp [readBytes]; omega)]
          simp only [readBytes, List.getElem_map, List.getElem_range,
            List.length_map, List.length_range]
          congr 1
          omega
  rw [hreal]
  have hout : (if fill < p.length then
        ((List.range fill).map fun k => s.buffer ((s.index_start + k) % 1024)) ++
          List.replicate (p.length - fill) 0
      else (List.range fill).map fun k => s.buffer ((s.index_start + k) % 1024))
      = ((List.range fill).map fun k => s.buffer ((s.index_start + k) % 1024)) ++
          List.replicate (p.length - fill) 0 := by
    rcases Nat.lt_or_ge fill p.length with h | h
    · rw [if_pos h]
    · rw [if_neg (by omega)]
      have hz : p.length - fill = 0 := by omega
      rw [hz, List.replicate_zero, List.append_nil]
  rw [hout]
  have hidx : (if s.index_start + fill ≥ 1024 then s.index_start + fill - 1024
      else s.index_start + fill) = (s.index_start + fill) % 1024 := by
    rcases le_or_lt 1024 (s.index_start + fill) with h | h
    · rw [if_pos h]; omega
    · rw [if_neg (by omega)]; omega
  rw [hidx]

/-! ### Abstraction of both operations to FIFO list operations -/

theorem getD_of_lt (l : List Nat) (n : Nat) (h : n < l.length) :
    l.getD n 0 = l[n] := by
  rw [List.getD_eq_getElem?_getD, List.getElem?_eq_getElem h, Option.getD_some]

theorem ext_getD (l₁ l₂ : List Nat) (hl : l₁.length = l₂.length)
    (h : ∀ k, k < l₁.length → l₁.getD k 0 = l₂.getD k 0) : l₁ = l₂ := by
  apply List.ext_getElem hl
  intro i h1 h2
  have hh := h i h1
  rwa [getD_of_lt _ _ h1, getD_of_lt _ _ h2] at hh

theorem getD_append (l₁ l₂ : List Nat) : ∀ k : Nat,
    (l₁ ++ l₂).getD k 0
      = if k < l₁.length then l₁.getD k 0 else l₂.getD (k - l₁.length) 0 := by
  induction l₁ with
  | nil => intro k; simp
  | cons a t ih =>
    intro k
    cases k with
    | zero => simp
    | succ n =>
      simp only [List.cons_append, List.getD_cons_succ, List.length_cons, ih n]
      by_cases h : n < t.length
      · rw [if_pos h, if_pos (by omega)]
      · rw [if_neg h, if_neg (by omega)]
        congr 1
        omega

theorem getD_map_range (f : Nat → Nat) (n k : Nat) (hk : k < n) :
    ((List.range n).map f).getD k 0 = f k := by
  rw [getD_of_lt _ _ (by simpa using hk)]
  simp

theorem ringContent_getD (s : MicDataState) (k : Nat) (hk : k < s.data_len) :
    (ringContent s).getD k 0
      = s.buffer ((s.index_start + k) % HEADSET_CONTROL_MIC_DATA_BUFFER_LEN) := by
  rw [ringContent]
  exact getD_map_range _ _ _ hk

theorem add_abs (s : MicDataState) (d : List Nat) (h : MicDataInv s) :
    MicDataInv (headset_control_mic_data_add s d) ∧
    ringContent (headset_control_mic_data_add s d)
      = ringContent s ++
          d.take (min d.length (HEADSET_CONTROL_MIC_DATA_BUFFER_LEN - s.data_len)) := by
  obtain ⟨h1, h2, h3⟩ := h
  by_cases hfull : s.data_len = HEADSET_CONTROL_MIC_DATA_BUFFER_LEN
  · have hs : headset_control_mic_data_add s d = s := by
      unfold headset_control_mic_data_add
      rw [if_pos hfull]
    rw [hs, hfull, Nat.sub_self, Nat.min_zero, List.take_zero, List.append_nil]
    exact ⟨⟨h1, h2, h3⟩, rfl⟩
  · have hNpos : 0 < HEADSET_CONTROL_MIC_DATA_BUFFER_LEN := by
      simp [HEADSET_CONTROL_MIC_DATA_BUFFER_LEN]
    have hend : s.index_end < HEADSET_CONTROL_MIC_DATA_BUFFER_LEN := by
      rw [h3]; exact Nat.mod_lt _ hNpos
    obtain ⟨hdl, hst, hie, hnew, hold⟩ :=
      add_spec s d (min d.length (HEADSET_CONTROL_MIC_DATA_BUFFER_LEN - s.data_len))
        hend (by omega) rfl
    have hfd : min d.length (HEADSET_CONTROL_MIC_DATA_BUFFER_LEN - s.data_len) ≤ d.length := by
      omega
    have hfN : min d.length (HEADSET_CONTROL_MIC_DATA_BUFFER_LEN - s.data_len)
        ≤ HEADSET_CONTROL_MIC_DATA_BUFFER_LEN - s.data_len := by omega
    refine ⟨⟨by omega, by rw [hst]; exact h2, ?_⟩, ?_⟩
    · rw [hie, hst, hdl, h3, Nat.mod_add_mod, Nat.add_assoc]
    · apply ext_getD
      · simp only [ringContent_length, List.length_append, List.length_take, hdl]
        omega
      · intro k hk1
        rw [ringContent_length, hdl] at hk1
        rw [ringContent_getD _ k (by rw [hdl]; exact hk1), hst,
          getD_append, ringContent_length]
        rcases Nat.lt_or_ge k s.data_len with hks | hks
        · rw [if_pos hks, ringContent_getD _ k hks]
          have hne : ∀ j, j < min d.length (HEADSET_CONTROL_MIC_DATA_BUFFER_LEN - s.data_len) →
              (s.index_start + k) % HEADSET_CONTROL_MIC_DATA_BUFFER_LEN
                ≠ (s.index_end + j) % HEADSET_CONTROL_MIC_DATA_BUFFER_LEN := by
            intro j hj heq
            rw [h3, Nat.mod_add_mod, Nat.add_assoc] at heq
            have := mod_add_inj (by omega) (by omega) heq
            omega
          exact hold _ (Nat.mod_lt _ hNpos) hne
        · rw [if_neg (by omega), getD_take d _ _ (by omega)]
          have harg : (s.index_start + k) % HEADSET_CONTROL_MIC_DATA_BUFFER_LEN
              = (s.index_end + (k - s.data_len)) % HEADSET_CONTROL_MIC_DATA_BUFFER_LEN := by
            rw [h3, Nat.mod_add_mod, Nat.add_assoc]
            congr 1
            omega
          rw [harg]
          exact hnew _ (by omega)

theorem callback_abs (s : MicDataState) (p : List Nat) (h : MicDataInv s) :
    MicDataInv ((headset_control_mic_data_add_callback s p).1) ∧
    ringContent ((headset_control_mic_data_add_callback s p).1)
      = (ringContent s).drop (min s.data_len p.length) ∧
    opDelivered s (MicOp.consume p) = (ringContent s).take (min s.data_len p.length) := by
  obtain ⟨h1, h2, h3⟩ := h
  have hNpos : 0 < HEADSET_CONTROL_MIC_DATA_BUFFER_LEN := by
    simp [HEADSET_CONTROL_MIC_DATA_BUFFER_LEN]
  by_cases h0 : s.data_len = 0
  · have hs : headset_control_mic_data_add_callback s p = (s, p, false) := by
      unfold headset_control_mic_data_add_callback
      rw [if_pos h0]
    refine ⟨?_, ?_, ?_⟩
    · rw [hs]; exact ⟨h1, h2, h3⟩
    · rw [hs]; simp [h0]
    · simp [opDelivered, hs, h0]
  · have hspec := callback_spec s p (min s.data_len p.length) h0 h2 h1 rfl
    have hfl : min s.data_len p.length ≤ s.data_len := by omega
    have hfp : min s.data_len p.length ≤ p.length := by omega
    refine ⟨?_, ?_, ?_⟩
    · rw [hspec]
      refine ⟨by simp; omega, by simp; exact Nat.mod_lt _ hNpos, ?_⟩
      show s.index_end
        = ((s.index_start + min s.data_len p.length) % HEADSET_CONTROL_MIC_DATA_BUFFER_LEN
            + (s.data_len - min s.data_len p.length)) % HEADSET_CONTROL_MIC_DATA_BUFFER_LEN
      rw [Nat.mod_add_mod, h3]
      congr 1
      omega
    · rw [hspec]
      apply ext_getD
      · simp only [ringContent_length, List.length_drop]
      · intro k hk
        rw [ringContent_length] at hk
        have hk2 : k < s.data_len - min s.data_len p.length := hk
        rw [ringContent_getD _ k hk]
        rw [getD_drop, ringContent_getD s _ (by omega)]
        show s.buffer
            (((s.index_start + min s.data_len p.length) % HEADSET_CONTROL_MIC_DATA_BUFFER_LEN
              + k) % HEADSET_CONTROL_MIC_DATA_BUFFER_LEN)
          = s.buffer ((s.index_start + (min s.data_len p.length + k))
              % HEADSET_CONTROL_MIC_DATA_BUFFER_LEN)
        rw [Nat.mod_add_mod, Nat.add_assoc]
    · simp only [opDelivered, hspec]
      rw [if_pos trivial]
      apply ext_getD
      · simp only [List.length_take, List.length_append, List.length_map,
          List.length_range, List.length_replicate, ringContent_length]
        omega
      · intro k hk
        simp only [List.length_take, List.length_append, List.length_map,
          List.length_range, List.length_replicate] at hk
        have hkf : k < min s.data_len p.length := by omega
        rw [getD_take _ _ _ hkf, getD_take _ _ _ hkf, getD_append,
          List.length_map, List.length_range, if_pos hkf,
          getD_map_range _ _ _ hkf, ringContent_getD s _ (by omega)]

/-! ### FIFO ordering over whole traces -/

theorem micTrace_eq (ops : List MicOp) : ∀ s : MicDataState, MicDataInv s →
    MicDataInv (micRun s ops) ∧
    micDelivered s ops ++ ringContent (micRun s ops)
      = ringContent s ++ micAccepted s ops := by
  induction ops with
  | nil =>
    intro s h
    exact ⟨h, by simp [micRun, micDelivered, micAccepted]⟩
  | cons op rest ih =>
    intro s h
    cases op with
    | append d =>
      obtain ⟨hInv', hrc⟩ := add_abs s d h
      obtain ⟨hInvFinal, heq⟩ := ih _ hInv'
      refine ⟨hInvFinal, ?_⟩
      simp only [micRun, micDelivered, micAccepted, micStep, opDelivered, opAccepted,
        List.nil_append]
      rw [heq, hrc, List.append_assoc]
    | consume p =>
      obtain ⟨hInv', hrc, hdel⟩ := callback_abs s p h
      obtain ⟨hInvFinal, heq⟩ := ih _ hInv'
      refine ⟨hInvFinal, ?_⟩
      simp only [micRun, micDelivered, micAccepted, micStep, opAccepted]
      rw [List.append_assoc, heq, hdel, hrc, ← List.append_assoc,
        List.take_append_drop, List.nil_append]

/-! ### Claim statements and theorems -/

/-- The per-call contract of `headset_control_mic_data_add`: on a full buffer
the call is a no-op; otherwise `accepted = min(len, N - length)` leading input
bytes land at the write cursor (wrapping at N), the write cursor advances by
`accepted` mod N, the length grows by `accepted`, the read cursor is untouched
and every ring byte outside the written positions is unchanged. -/
def MicAddPerCall (s : MicDataState) (d : List Nat) : Prop :=
  (s.data_len = HEADSET_CONTROL_MIC_DATA_BUFFER_LEN →
    headset_control_mic_data_add s d = s) ∧
  (s.data_len < HEADSET_CONTROL_MIC_DATA_BUFFER_LEN →
    (headset_control_mic_data_add s d).data_len
        = s.data_len + min d.length (HEADSET_CONTROL_MIC_DATA_BUFFER_LEN - s.data_len) ∧
    (headset_control_mic_data_add s d).index_start = s.index_start ∧
    (headset_control_mic_data_add s d).index_end
        = (s.index_end + min d.length (HEADSET_CONTROL_MIC_DATA_BUFFER_LEN - s.data_len))
            % HEADSET_CONTROL_MIC_DATA_BUFFER_LEN ∧
    (∀ j, j < min d.length (HEADSET_CONTROL_MIC_DATA_BUFFER_LEN - s.data_len) →
      (headset_control_mic_data_add s d).buffer
          ((s.index_end + j) % HEADSET_CONTROL_MIC_DATA_BUFFER_LEN) = d.getD j 0) ∧
    (∀ i, i < HEADSET_CONTROL_MIC_DATA_BUFFER_LEN →
      (∀ j, j < min d.length (HEADSET_CONTROL_MIC_DATA_BUFFER_LEN - s.data_len) →
        i ≠ (s.index_end + j) % HEADSET_CONTROL_MIC_DATA_BUFFER_LEN) →
      (headset_control_mic_data_add s d).buffer i = s.buffer i))

/-- C3: `headset_control_mic_data_add` is a no-op on a full buffer and
otherwise accepts exactly `min(len(data), N - length)` leading bytes into the
ring at the write cursor with wraparound, advances the write cursor mod N,
grows `length` accordingly and silently discards the rest of the input. -/
theorem mic_data_add_per_call (s : MicDataState) (d : List Nat)
    (hend : s.index_end < HEADSET_CONTROL_MIC_DATA_BUFFER_LEN)
    (_hlen : s.data_len ≤ HEADSET_CONTROL_MIC_DATA_BUFFER_LEN) :
    MicAddPerCall s d := by
  constructor
  · intro hfull
    unfold headset_control_mic_data_add
    rw [if_pos hfull]
  · intro hlt
    exact add_spec s d _ hend hlt rfl

/-- Witness for C3 at the initial state with input `[1, 2, 3]`. -/
theorem mic_data_add_per_call_witness :
    micDataInit.index_end < HEADSET_CONTROL_MIC_DATA_BUFFER_LEN ∧
    micDataInit.data_len ≤ HEADSET_CONTROL_MIC_DATA_BUFFER_LEN ∧
    MicAddPerCall micDataInit [1, 2, 3] :=
  ⟨by decide, by decide, mic_data_add_per_call micDataInit [1, 2, 3] (by decide) (by decide)⟩

/-- The per-call contract of `headset_control_mic_data_add_callback` on a
non-empty buffer: it returns WICED_TRUE, the output buffer holds
`real = min(length, requested_len)` ring bytes read from the read cursor
(wrapping at N) followed by `requested_len - real` zero bytes, the read cursor
advances by `real` mod N, `length` shrinks by `real`, and storage and write
cursor are untouched. -/
def MicConsumePerCall (s : MicDataState) (p : List Nat) : Prop :=
  headset_control_mic_data_add_callback s p =
    ({ buffer := s.buffer,
       data_len := s.data_len - min s.data_len p.length,
       index_start := (s.index_start + min s.data_len p.length)
           % HEADSET_CONTROL_MIC_DATA_BUFFER_LEN,
       index_end := s.index_end },
     ((List.range (min s.data_len p.length)).map fun k =>
        s.buffer ((s.index_start + k) % HEADSET_CONTROL_MIC_DATA_BUFFER_LEN)) ++
       List.replicate (p.length - min s.data_len p.length) 0,
     true) ∧
  ((headset_control_mic_data_add_callback s p).2.1).length = p.length

/-- C4: on a non-empty buffer the consumer callback reports data present,
copies `min(length, requested_len)` bytes from the read cursor with
wraparound, zero-fills the rest of the requested length, advances the read
cursor mod N and shrinks `length`, so the output is exactly `requested_len`
bytes. -/
theorem mic_data_consume_per_call (s : MicDataState) (p : List Nat)
    (h0 : ¬ s.data_len = 0)
    (hstart : s.index_start < HEADSET_CONTROL_MIC_DATA_BUFFER_LEN)
    (hlen : s.data_len ≤ HEADSET_CONTROL_MIC_DATA_BUFFER_LEN) :
    MicConsumePerCall s p := by
  have hspec := callback_spec s p (min s.data_len p.length) h0 hstart hlen rfl
  refine ⟨hspec, ?_⟩
  rw [hspec]
  simp only [List.length_append, List.length_map, List.length_range,
    List.length_replicate]
  omega

/-- Witness for C4: three bytes appended at the initial state, then a
two-byte pull. -/
theorem mic_data_consume_per_call_witness :
    ¬ (headset_control_mic_data_add micDataInit [5, 6, 7]).data_len = 0 ∧
    (headset_control_mic_data_add micDataInit [5, 6, 7]).index_start
        < HEADSET_CONTROL_MIC_DATA_BUFFER_LEN ∧
    (headset_control_mic_data_add micDataInit [5, 6, 7]).data_len
        ≤ HEADSET_CONTROL_MIC_DATA_BUFFER_LEN ∧
    MicConsumePerCall (headset_control_mic_data_add micDataInit [5, 6, 7]) [0, 0] :=
  ⟨by decide, by decide, by decide,
    mic_data_consume_per_call (headset_control_mic_data_add micDataInit [5, 6, 7]) [0, 0]
      (by decide) (by decide) (by decide)⟩

/-- C1 counterexample: with the buffer empty, the callback returns
WICED_FALSE but does not zero-fill the caller's output buffer: a one-byte
output buffer holding `7` still holds `7` on return, not the single zero
byte the claim requires. -/
theorem mic_consume_empty_not_zero_filled :
    (headset_control_mic_data_add_callback micDataInit [7]).2.2 = false ∧
    (headset_control_mic_data_add_callback micDataInit [7]).2.1 ≠ List.replicate 1 0 := by
  constructor
  · rfl
  · decide

/-- C1 (amended): `headset_control_mic_data_add_callback` on an empty buffer
returns `has_data = WICED_FALSE`, leaves the ring state unchanged and leaves
the caller's output buffer exactly as it was (it is not zero-filled). -/
theorem mic_consume_empty_amended (s : MicDataState) (p : List Nat)
    (h : s.data_len = 0) :
    headset_control_mic_data_add_callback s p = (s, p, false) := by
  unfold headset_control_mic_data_add_callback
  rw [if_pos h]

/-- Witness for the amended C1 at the initial state. -/
theorem mic_consume_empty_amended_witness :
    micDataInit.data_len = 0 ∧
    headset_control_mic_data_add_callback micDataInit [3, 4] = (micDataInit, [3, 4], false) :=
  ⟨rfl, mic_consume_empty_amended micDataInit [3, 4] rfl⟩

/-- C10: whenever the consumer callback reports `has_data = WICED_FALSE`,
the entire ring state (length, both cursors, storage) is unchanged and the
caller's output buffer is untouched. -/
theorem mic_consume_no_data_frame (s : MicDataState) (p : List Nat)
    (h : (headset_control_mic_data_add_callback s p).2.2 = false) :
    headset_control_mic_data_add_callback s p = (s, p, false) := by
  by_cases h0 : s.data_len = 0
  · unfold headset_control_mic_data_add_callback
    rw [if_pos h0]
  · exfalso
    unfold headset_control_mic_data_add_callback at h
    rw [if_neg h0] at h
    simp at h

/-- Witness for C10 at the initial state. -/
theorem mic_consume_no_data_frame_witness :
    (headset_control_mic_data_add_callback micDataInit [1]).2.2 = false ∧
    headset_control_mic_data_add_callback micDataInit [1] = (micDataInit, [1], false) :=
  ⟨rfl, mic_consume_no_data_frame micDataInit [1] rfl⟩

/-- C2: over any sequence of append/consume operations from the initial
state, the real bytes delivered by the consumer are a prefix of the bytes
accepted by the producer, in FIFO order. -/
theorem mic_data_fifo_order (ops : List MicOp) :
    micDelivered micDataInit ops <+: micAccepted micDataInit ops := by
  obtain ⟨-, heq⟩ := micTrace_eq ops micDataInit ⟨by decide, by decide, by decide⟩
  refine ⟨ringContent (micRun micDataInit ops), ?_⟩
  rw [heq]
  rfl

/-- C5: `headset_control_local_irk_update` with a key equal to the cached
one issues no persistence write and changes nothing; with a differing key it
issues exactly one write, adopts the new key and a success status exactly
when the write reports all 16 bytes written with WICED_BT_SUCCESS, and
retains the previous cache and status unchanged on any write failure. -/
theorem local_irk_update_correct (info : headset_control_local_irk_info_t)
    (p_key : List Nat) (nvram_write : List Nat → Nat × wiced_result_t)
    (_hk : p_key.length = BTM_SECURITY_LOCAL_KEY_DATA_LEN)
    (_hc : info.local_irk.length = BTM_SECURITY_LOCAL_KEY_DATA_LEN) :
    (p_key = info.local_irk →
      headset_control_local_irk_update info p_key nvram_write = (info, 0)) ∧
    (¬ p_key = info.local_irk →
      (headset_control_local_irk_update info p_key nvram_write).2 = 1 ∧
      ((nvram_write p_key).1 = BTM_SECURITY_LOCAL_KEY_DATA_LEN ∧
          (nvram_write p_key).2 = wiced_result_t.WICED_BT_SUCCESS →
        (headset_control_local_irk_update info p_key nvram_write).1
          = { local_irk := p_key, result := wiced_result_t.WICED_BT_SUCCESS }) ∧
      (¬ ((nvram_write p_key).1 = BTM_SECURITY_LOCAL_KEY_DATA_LEN ∧
          (nvram_write p_key).2 = wiced_result_t.WICED_BT_SUCCESS) →
        (headset_control_local_irk_update info p_key nvram_write).1 = info)) := by
  constructor
  · intro h
    unfold headset_control_local_irk_update
    rw [if_pos h]
  · intro h
    unfold headset_control_local_irk_update
    rw [if_neg h]
    by_cases hw : (nvram_write p_key).1 = BTM_SECURITY_LOCAL_KEY_DATA_LEN ∧
        (nvram_write p_key).2 = wiced_result_t.WICED_BT_SUCCESS
    · rw [if_pos hw]
      refine ⟨rfl, fun _ => ?_, fun hn => absurd hw hn⟩
      simp only [hw.2]
    · rw [if_neg hw]
      exact ⟨rfl, fun hs => absurd hs hw, fun _ => rfl⟩

/-- Witness for C5: a differing 16-byte key with a succeeding NVRAM write. -/
theorem local_irk_update_correct_witness :
    (1 :: List.replicate 15 0).length = BTM_SECURITY_LOCAL_KEY_DATA_LEN ∧
    ({ local_irk := List.replicate 16 0, result := wiced_result_t.WICED_BT_ERROR
        : headset_control_local_irk_info_t }).local_irk.length
      = BTM_SECURITY_LOCAL_KEY_DATA_LEN ∧
    ((1 :: List.replicate 15 0)
          = ({ local_irk := List.replicate 16 0, result := wiced_result_t.WICED_BT_ERROR
              : headset_control_local_irk_info_t }).local_irk →
        headset_control_local_irk_update
          { local_irk := List.replicate 16 0, result := wiced_result_t.WICED_BT_ERROR }
          (1 :: List.replicate 15 0) (fun _ => (16, wiced_result_t.WICED_BT_SUCCESS))
          = ({ local_irk := List.replicate 16 0, result := wiced_result_t.WICED_BT_ERROR }, 0)) ∧
    (¬ (1 :: List.replicate 15 0)
          = ({ local_irk := List.replicate 16 0, result := wiced_result_t.WICED_BT_ERROR
              : headset_control_local_irk_info_t }).local_irk →
      (headset_control_local_irk_update
          { local_irk := List.replicate 16 0, result := wiced_result_t.WICED_BT_ERROR }
          (1 :: List.replicate 15 0) (fun _ => (16, wiced_result_t.WICED_BT_SUCCESS))).2 = 1 ∧
      (((fun (_ : List Nat) => (16, wiced_result_t.WICED_BT_SUCCESS)) (1 :: List.replicate 15 0)).1
            = BTM_SECURITY_LOCAL_KEY_DATA_LEN ∧
          ((fun (_ : List Nat) => (16, wiced_result_t.WICED_BT_SUCCESS)) (1 :: List.replicate 15 0)).2
            = wiced_result_t.WICED_BT_SUCCESS →
        (headset_control_local_irk_update
            { local_irk := List.replicate 16 0, result := wiced_result_t.WICED_BT_ERROR }
            (1 :: List.replicate 15 0) (fun _ => (16, wiced_result_t.WICED_BT_SUCCESS))).1
          = { local_irk := 1 :: List.replicate 15 0,
              result := wiced_result_t.WICED_BT_SUCCESS }) ∧
      (¬ (((fun (_ : List Nat) => (16, wiced_result_t.WICED_BT_SUCCESS)) (1 :: List.replicate 15 0)).1
            = BTM_SECURITY_LOCAL_KEY_DATA_LEN ∧
          ((fun (_ : List Nat) => (16, wiced_result_t.WICED_BT_SUCCESS)) (1 :: List.replicate 15 0)).2
            = wiced_result_t.WICED_BT_SUCCESS) →
        (headset_control_local_irk_update
            { local_irk := List.replicate 16 0, result := wiced_result_t.WICED_BT_ERROR }
            (1 :: List.replicate 15 0) (fun _ => (16, wiced_result_t.WICED_BT_SUCCESS))).1
          = { local_irk := List.replicate 16 0, result := wiced_result_t.WICED_BT_ERROR })) :=
  ⟨by decide, by decide,
    local_irk_update_correct
      { local_irk := List.replicate 16 0, result := wiced_result_t.WICED_BT_ERROR }
      (1 :: List.replicate 15 0) (fun _ => (16, wiced_result_t.WICED_BT_SUCCESS))
      (by decide) (by decide)⟩

/-- C6: the identity-key request handler returns the cached key with a
success status exactly when the cached status (recorded by the last
successful restore or update) is WICED_BT_SUCCESS; otherwise it returns
WICED_BT_NO_RESOURCES and writes no key into the stack's output field. -/
theorem identity_keys_request_correct (info : headset_control_local_irk_info_t)
    (prev_out : List Nat) :
    (btheadset_handle_identity_keys_request info prev_out
        = (wiced_result_t.WICED_BT_SUCCESS, info.local_irk)
      ↔ info.result = wiced_result_t.WICED_BT_SUCCESS) ∧
    (¬ info.result = wiced_result_t.WICED_BT_SUCCESS →
      btheadset_handle_identity_keys_request info prev_out
        = (wiced_result_t.WICED_BT_NO_RESOURCES, prev_out)) := by
  unfold btheadset_handle_identity_keys_request
  by_cases h : info.result = wiced_result_t.WICED_BT_SUCCESS
  · rw [if_pos h]
    exact ⟨⟨fun _ => h, fun _ => rfl⟩, fun hn => absurd h hn⟩
  · rw [if_neg h]
    refine ⟨⟨fun heq => ?_, fun hs => absurd hs h⟩, fun _ => rfl⟩
    injection heq with h1 h2
    exact absurd h1 (by decide)

/-- Witness for C6 with a failed cached status. -/
theorem identity_keys_request_correct_witness :
    (btheadset_handle_identity_keys_request
        { local_irk := List.replicate 16 0, result := wiced_result_t.WICED_BT_ERROR } [9]
        = (wiced_result_t.WICED_BT_SUCCESS,
            ({ local_irk := List.replicate 16 0, result := wiced_result_t.WICED_BT_ERROR
              : headset_control_local_irk_info_t }).local_irk)
      ↔ ({ local_irk := List.replicate 16 0, result := wiced_result_t.WICED_BT_ERROR
          : headset_control_local_irk_info_t }).result = wiced_result_t.WICED_BT_SUCCESS) ∧
    (¬ ({ local_irk := List.replicate 16 0, result := wiced_result_t.WICED_BT_ERROR
          : headset_control_local_irk_info_t }).result = wiced_result_t.WICED_BT_SUCCESS →
      btheadset_handle_identity_keys_request
          { local_irk := List.replicate 16 0, result := wiced_result_t.WICED_BT_ERROR } [9]
        = (wiced_result_t.WICED_BT_NO_RESOURCES, [9])) :=
  identity_keys_request_correct
    { local_irk := List.replicate 16 0, result := wiced_result_t.WICED_BT_ERROR } [9]

/-- C7: the BR/EDR IO-capability reply is DisplayYesNo in fast-pair seeker
mode and None otherwise, always with single-profile general bonding and no
OOB data; the LE IO-capability reply is always None/no-OOB with
SC|MITM|Bonding auth requirements, max key size 16 and the four-flag key
distribution {PENC, PID, PCSRK, LENC} for both initiator and responder. -/
theorem io_caps_request_replies (seeker_mode : Bool) :
    ((btheadset_handle_io_caps_br_edr_request seeker_mode).local_io_cap
        = if seeker_mode then BTM_IO_CAPABILITIES_DISPLAY_AND_YES_NO_INPUT
          else BTM_IO_CAPABILITIES_NONE) ∧
    (btheadset_handle_io_caps_br_edr_request seeker_mode).auth_req
        = BTM_AUTH_SINGLE_PROFILE_GENERAL_BONDING_NO ∧
    (btheadset_handle_io_caps_br_edr_request seeker_mode).oob_data = false ∧
    btheadset_handle_io_caps_ble_request.local_io_cap = BTM_IO_CAPABILITIES_NONE ∧
    btheadset_handle_io_caps_ble_request.oob_data = BTM_OOB_NONE ∧
    btheadset_handle_io_caps_ble_request.auth_req
        = (BTM_LE_AUTH_REQ_SC ||| BTM_LE_AUTH_REQ_MITM ||| BTM_LE_AUTH_REQ_BOND) ∧
    btheadset_handle_io_caps_ble_request.max_key_size = 16 ∧
    btheadset_handle_io_caps_ble_request.init_keys
        = (BTM_LE_KEY_PENC ||| BTM_LE_KEY_PID ||| BTM_LE_KEY_PCSRK ||| BTM_LE_KEY_LENC) ∧
    btheadset_handle_io_caps_ble_request.resp_keys
        = btheadset_handle_io_caps_ble_request.init_keys := by
  cases seeker_mode <;> decide

/-- Witness for C7 with seeker mode active. -/
theorem io_caps_request_replies_witness :
    ((btheadset_handle_io_caps_br_edr_request true).local_io_cap
        = if true then BTM_IO_CAPABILITIES_DISPLAY_AND_YES_NO_INPUT
          else BTM_IO_CAPABILITIES_NONE) ∧
    (btheadset_handle_io_caps_br_edr_request true).auth_req
        = BTM_AUTH_SINGLE_PROFILE_GENERAL_BONDING_NO ∧
    (btheadset_handle_io_caps_br_edr_request true).oob_data = false ∧
    btheadset_handle_io_caps_ble_request.local_io_cap = BTM_IO_CAPABILITIES_NONE ∧
    btheadset_handle_io_caps_ble_request.oob_data = BTM_OOB_NONE ∧
    btheadset_handle_io_caps_ble_request.auth_req
        = (BTM_LE_AUTH_REQ_SC ||| BTM_LE_AUTH_REQ_MITM ||| BTM_LE_AUTH_REQ_BOND) ∧
    btheadset_handle_io_caps_ble_request.max_key_size = 16 ∧
    btheadset_handle_io_caps_ble_request.init_keys
        = (BTM_LE_KEY_PENC ||| BTM_LE_KEY_PID ||| BTM_LE_KEY_PCSRK ||| BTM_LE_KEY_LENC) ∧
    btheadset_handle_io_caps_ble_request.resp_keys
        = btheadset_handle_io_caps_ble_request.init_keys :=
  io_caps_request_replies true

/-- C8: the security-request handler calls the stack's security grant with a
success status exactly when the external pairing_allowed flag is set; when
the flag is clear no grant is issued and the handler returns WICED_BT_ERROR
to the stack. -/
theorem security_request_gate (pairing_allowed : Bool) :
    ((btheadset_handle_security_request pairing_allowed).1
        = some wiced_result_t.WICED_BT_SUCCESS ↔ pairing_allowed = true) ∧
    (pairing_allowed = false →
      (btheadset_handle_security_request pairing_allowed).1 = none ∧
      (btheadset_handle_security_request pairing_allowed).2
        = wiced_result_t.WICED_BT_ERROR) ∧
    (pairing_allowed = true →
      (btheadset_handle_security_request pairing_allowed).2
        = wiced_result_t.WICED_BT_SUCCESS) := by
  cases pairing_allowed <;> decide

/-- Witness for C8 with pairing not allowed. -/
theorem security_request_gate_witness :
    ((btheadset_handle_security_request false).1
        = some wiced_result_t.WICED_BT_SUCCESS ↔ false = true) ∧
    (false = false →
      (btheadset_handle_security_request false).1 = none ∧
      (btheadset_handle_security_request false).2 = wiced_result_t.WICED_BT_ERROR) ∧
    (false = true →
      (btheadset_handle_security_request false).2 = wiced_result_t.WICED_BT_SUCCESS) :=
  security_request_gate false

/-- C9: every SCO event is forwarded unchanged to the call-control
collaborator, and exactly the disconnect event additionally resets the
microphone ring: length and both cursors become 0 and all storage bytes of
the ring become 0. -/
theorem sco_event_routing (ev : ScoEvent) (s : MicDataState) :
    (btheadset_handle_sco_event ev s).1 = ev ∧
    (ev = ScoEvent.sco_disconnected →
      (btheadset_handle_sco_event ev s).2 = headset_control_mic_data_reset s ∧
      (btheadset_handle_sco_event ev s).2.data_len = 0 ∧
      (btheadset_handle_sco_event ev s).2.index_start = 0 ∧
      (btheadset_handle_sco_event ev s).2.index_end = 0 ∧
      (∀ i, i < HEADSET_CONTROL_MIC_DATA_BUFFER_LEN →
        (btheadset_handle_sco_event ev s).2.buffer i = 0)) ∧
    (¬ ev = ScoEvent.sco_disconnected → (btheadset_handle_sco_event ev s).2 = s) := by
  refine ⟨rfl, ?_, ?_⟩
  · intro hev
    have h2 : (btheadset_handle_sco_event ev s).2 = headset_control_mic_data_reset s := by
      simp only [btheadset_handle_sco_event, if_pos hev]
    refine ⟨h2, by rw [h2]; rfl, by rw [h2]; rfl, by rw [h2]; rfl, ?_⟩
    intro i hi
    rw [h2]
    simp only [headset_control_mic_data_reset]
    rw [writeBytes_apply,
      if_pos ⟨Nat.zero_le i, by rw [List.length_replicate]; omega⟩,
      Nat.sub_zero, getD_replicate_zero]
  · intro hev
    simp only [btheadset_handle_sco_event, if_neg hev]

/-- Witness for C9 at a disconnect event on the initial state. -/
theorem sco_event_routing_witness :
    (btheadset_handle_sco_event ScoEvent.sco_disconnected micDataInit).1
        = ScoEvent.sco_disconnected ∧
    (ScoEvent.sco_disconnected = ScoEvent.sco_disconnected →
      (btheadset_handle_sco_event ScoEvent.sco_disconnected micDataInit).2
          = headset_control_mic_data_reset micDataInit ∧
      (btheadset_handle_sco_event ScoEvent.sco_disconnected micDataInit).2.data_len = 0 ∧
      (btheadset_handle_sco_event ScoEvent.sco_disconnected micDataInit).2.index_start = 0 ∧
      (btheadset_handle_sco_event ScoEvent.sco_disconnected micDataInit).2.index_end = 0 ∧
      (∀ i, i < HEADSET_CONTROL_MIC_DATA_BUFFER_LEN →
        (btheadset_handle_sco_event ScoEvent.sco_disconnected micDataInit).2.buffer i = 0)) ∧
    (¬ ScoEvent.sco_disconnected = ScoEvent.sco_disconnected →
      (btheadset_handle_sco_event ScoEvent.sco_disconnected micDataInit).2 = micDataInit) :=
  sco_event_routing ScoEvent.sco_disconnected micDataInit

end HeadsetControl
